import Mathlib

/-!
# P2PInstantMessenger: a verification development

Shallow embedding of the two Go programs of the repository:

* `src/main.go`: the interactive chat program (`UDPAddrEqual`, interface
  selection, the reader goroutine feeding `readChannel`);
* `src/go_src/main.go`: the automated variant (`multicast_writer`,
  `multicast_reader`, `multicast`).

Go values are embedded as follows.  A `[]byte` and a `string` are lists of
bytes (`string(b[:n])` and `[]byte(msg)` copy the bytes unchanged).  A call into
the operating system or a library (`ReadFrom`, `WriteTo`, `JoinGroup`, ...) is a
value supplied by the environment: the loops are functions of the sequence of
results those calls return, and they record what they do in a trace of events.
-/

set_option autoImplicit false

namespace P2PInstantMessenger

/-! ## Package `net`: IP addresses -/

/-- One octet. -/
abbrev Byte := Fin 256

/-- Go `net.IP`, a byte slice: 4 bytes (IPv4), 16 bytes (IPv6), or malformed. -/
abbrev IP := List Byte

/-- Go `net.IPv4len`. -/
def IPv4len : Nat := 4

/-- Go `net.IPv6len`. -/
def IPv6len : Nat := 16

/-- Go `net.v4InV6Prefix`: the 12 leading bytes of an IPv4-mapped IPv6 address. -/
def v4InV6Prefix : List Byte := [0, 0, 0, 0, 0, 0, 0, 0, 0, 0, 0xff, 0xff]

/-- Go `net.IPv4(a, b, c, d)`: the 16-byte form of the IPv4 address a.b.c.d. -/
def IPv4 (a b c d : Byte) : IP := v4InV6Prefix ++ [a, b, c, d]

namespace IP

/-- Go `func (ip IP) Equal(x IP) bool`: byte equality for equal lengths, and an
IPv4 address equals its IPv4-mapped 16-byte form. -/
def Equal (ip x : IP) : Bool :=
  if ip.length = x.length then
    decide (ip = x)
  else if ip.length = IPv4len ∧ x.length = IPv6len then
    decide (x.take 12 = v4InV6Prefix) && decide (ip = x.drop 12)
  else if ip.length = IPv6len ∧ x.length = IPv4len then
    decide (ip.take 12 = v4InV6Prefix) && decide (ip.drop 12 = x)
  else
    false

/-- Go `net.isZeros`. -/
def isZeros (p : List Byte) : Bool := p.all (fun c => c == 0)

/-- Go `func (ip IP) To4() IP`; `none` is the nil result. -/
def To4 (ip : IP) : Option IP :=
  if ip.length = IPv4len then
    some ip
  else if ip.length = IPv6len ∧ isZeros (ip.take 10) = true
      ∧ ip.get? 10 = some 0xff ∧ ip.get? 11 = some 0xff then
    some ((ip.drop 12).take 4)
  else
    none

/-- Go `func (ip IP) IsMulticast() bool`. -/
def IsMulticast (ip : IP) : Bool :=
  match To4 ip with
  | some ip4 => ip4.getD 0 0 &&& 0xf0 == 0xe0
  | none => decide (ip.length = IPv6len ∧ ip.get? 0 = some 0xff)

end IP

/-- Go `net.UDPAddr`. -/
structure UDPAddr where
  IP : IP
  Port : Int
  Zone : String
  deriving DecidableEq, Repr

/-! ## `src/main.go`: address comparison -/

/-- Go `func UDPAddrEqual(a, b *net.UDPAddr) bool` (`src/main.go`, lines 15-17). -/
def UDPAddrEqual (a b : UDPAddr) : Bool :=
  IP.Equal a.IP b.IP && decide (a.Port = b.Port)

/-- Specification side of address comparison: the 16-byte form under which an
IPv4 address and its IPv4-mapped IPv6 form are one and the same address.  A byte
slice of any other length stands for itself. -/
def canonicalIP (ip : IP) : List Byte :=
  if ip.length = IPv4len then v4InV6Prefix ++ ip else ip

/-- Specification side: two `net.IP` values denote the same IP address. -/
def SameIP (x y : IP) : Prop := canonicalIP x = canonicalIP y

instance (x y : IP) : Decidable (SameIP x y) := by
  unfold SameIP; infer_instance

/-! ## `src/go_src/main.go`: the Transmit Loop and the Receive Loop -/

/-- Go `string`: an immutable sequence of bytes. -/
abbrev GoString := List Byte

/-- The error value of a failed `p.ReadFrom(b)`, seen through the two
observations `multicast_reader` makes of it: whether its dynamic type is
`*net.OpError` (the type assertion of line 32) and what it reports as a
timeout indication. -/
inductive ReadErr
  | opError (timeout : Bool)
  | other (timeout : Bool)
  deriving DecidableEq, Repr

/-- The timeout indication of a read error. -/
def ReadErr.Timeout : ReadErr → Bool
  | .opError t => t
  | .other t => t

/-- Go `ipv4.ControlMessage`, the per-packet metadata: the destination address.
The connection has `FlagDst` enabled before the Receive Loop starts. -/
structure ControlMessage where
  Dst : IP
  deriving DecidableEq, Repr

/-- The result `(n, cm, src, err)` of one `p.ReadFrom(b)`.  For a successful
read, `b` is the content of the read buffer when the call returns, of which the
first `n` bytes are the datagram read (`n` is at most the length of `b`). -/
inductive ReadResult
  | ok (n : Nat) (b : List Byte) (cm : ControlMessage) (src : UDPAddr)
  | fail (err : ReadErr)
  deriving DecidableEq, Repr

/-- The result `(n, err)` of one `p.WriteTo(b, nil, dst)`. -/
inductive WriteResult
  | ok (n : Nat)
  | fail (err : String)
  deriving DecidableEq, Repr

/-- Whether a write returned a nil error. -/
def WriteResult.isOk : WriteResult → Bool
  | .ok _ => true
  | .fail _ => false

/-- What a loop does, in program order. -/
inductive Event
  /-- The call `p.SetReadDeadline(time.Now().Add(seconds * time.Second))`. -/
  | SetReadDeadline (seconds : Nat)
  /-- The call `p.ReadFrom(b)` returned `r`. -/
  | ReadFrom (r : ReadResult)
  /-- The call `p.WriteTo(b, nil, dst)` was made. -/
  | WriteTo (b : List Byte) (dst : UDPAddr)
  /-- The pop `msg := <- outbound` completed. -/
  | recv (msg : GoString)
  /-- The push `inbound <- msg` completed. -/
  | send (msg : GoString)
  /-- The assignment `*err_out = errors.New(text)`. -/
  | assignErr (text : String)
  /-- The call `fmt.Println(text, arg)`; a wall-clock argument is left out. -/
  | Println (text : String) (arg : GoString)
  /-- The loop returned. -/
  | ret
  deriving DecidableEq, Repr

/-- The state of a loop: the error slot `*err_out` (`none` is nil), what the
loop has done so far, and whether it has returned. -/
structure LoopState where
  err_out : Option String
  trace : List Event
  returned : Bool
  deriving DecidableEq, Repr

/-- A loop about to start, with the caller's value in the error slot. -/
def LoopState.init (err_out : Option String) : LoopState :=
  { err_out := err_out, trace := [], returned := false }

/-- Append events to the trace. -/
def LoopState.emit (s : LoopState) (es : List Event) : LoopState :=
  { s with trace := s.trace ++ es }

/-- The three statements of a fatal branch: `*err_out = errors.New(text)`,
`fmt.Println(*err_out)`, `return`. -/
def LoopState.fatal (s : LoopState) (text : String) : LoopState :=
  { err_out := some text
    trace := s.trace ++ [.assignErr text, .Println text [], .ret]
    returned := true }

/-- Go `func multicast_writer(outbound chan string, p *ipv4.PacketConn,
dst *net.UDPAddr, err_out *error)` (`src/go_src/main.go`, lines 13-24).

`outbound` lists the payloads the loop pops, in pop order, and `results` the
results of the writes it performs, in call order.  With no payload left the loop
is blocked in `<- outbound`; with no result left the write has been issued and
has not returned. -/
def multicast_writer (dst : UDPAddr) :
    List GoString → List WriteResult → LoopState → LoopState
  | [], _, s => s
  | msg :: _, [], s => s.emit [.recv msg, .WriteTo msg dst]
  | msg :: outbound, r :: results, s =>
    let s := s.emit [.recv msg, .WriteTo msg dst]
    match r with
    | .fail _ => s.fatal "Failed to WriteTo"
    | .ok _ => multicast_writer dst outbound results (s.emit [.Println "Sent: " msg])

/-- Go `func multicast_reader(inbound chan string, p *ipv4.PacketConn,
group net.IP, b []byte, err_out *error)` (`src/go_src/main.go`, lines 26-54).

The list holds the results of the reads the loop performs, in call order; with
no result left the loop is waiting in `p.ReadFrom(b)`.  A push `inbound <- msg`
is recorded when it completes: the consumer, `inbound_listener`, receives for
ever, so that every push is taken up and the loop reaches its next read. -/
def multicast_reader (group : IP) : List ReadResult → LoopState → LoopState
  | [], s => s
  | r :: rest, s =>
    let s := s.emit [.SetReadDeadline 10, .Println "Attempting to Read..." [], .ReadFrom r]
    match r with
    | .fail err =>
      match err with
      | .opError timeout =>
        if timeout then
          multicast_reader group rest (s.emit [.Println "ReadFrom Timed Out at: " []])
        else
          s.fatal "Failed to ReadFrom"
      | .other _ => s.fatal "Failed to ReadFrom with non net.OpError"
    | .ok n b cm _ =>
      if IP.IsMulticast cm.Dst && IP.Equal cm.Dst group then
        let msg := b.take n
        multicast_reader group rest (s.emit [.send msg, .Println "Recieved: " msg])
      else
        multicast_reader group rest s

/-- The messages pushed onto the inbound queue, in push order. -/
def sends : List Event → List GoString
  | [] => []
  | .send msg :: es => msg :: sends es
  | _ :: es => sends es

/-- The datagrams handed to `WriteTo`, in call order. -/
def writes : List Event → List (List Byte × UDPAddr)
  | [] => []
  | .WriteTo b dst :: es => (b, dst) :: writes es
  | _ :: es => writes es

/-- The payloads popped from the outbound queue, in pop order. -/
def recvs : List Event → List GoString
  | [] => []
  | .recv msg :: es => msg :: recvs es
  | _ :: es => recvs es

/-- The results of the reads performed, in call order. -/
def reads : List Event → List ReadResult
  | [] => []
  | .ReadFrom r :: es => r :: reads es
  | _ :: es => reads es

/-- How many times the error slot was assigned. -/
def assignCount : List Event → Nat
  | [] => 0
  | .assignErr _ :: es => assignCount es + 1
  | _ :: es => assignCount es

/-- The events of one Transmit Loop iteration whose write succeeds. -/
def sentEvents (dst : UDPAddr) (msg : GoString) : List Event :=
  [.recv msg, .WriteTo msg dst, .Println "Sent: " msg]

/-- The events of the Transmit Loop iteration whose write fails. -/
def failedWriteEvents (dst : UDPAddr) (msg : GoString) : List Event :=
  [.recv msg, .WriteTo msg dst, .assignErr "Failed to WriteTo",
   .Println "Failed to WriteTo" [], .ret]

/-- The events of the Transmit Loop iterations for payloads whose writes all
succeed. -/
def sentTrace (dst : UDPAddr) : List GoString → List Event
  | [] => []
  | msg :: rest => sentEvents dst msg ++ sentTrace dst rest

/-- The events with which every Receive Loop iteration begins. -/
def readEvents (r : ReadResult) : List Event :=
  [.SetReadDeadline 10, .Println "Attempting to Read..." [], .ReadFrom r]

/-- The diagnostic text of a read error that ends the Receive Loop. -/
def fatalText : ReadErr → String
  | .opError _ => "Failed to ReadFrom"
  | .other _ => "Failed to ReadFrom with non net.OpError"

/-- Specification side: the message a read delivers to the inbound queue, if
any: the first `n` bytes of the buffer of a successful read whose destination is
a multicast address equal to the joined group. -/
def delivered (group : IP) : ReadResult → Option GoString
  | .ok n b cm _ =>
    if IP.IsMulticast cm.Dst = true ∧ IP.Equal cm.Dst group = true then some (b.take n) else none
  | .fail _ => none

/-! ## `src/go_src/main.go`: `multicast` -/

/-- Go `group := net.IPv4(224, 0, 0, 250)` (line 64). -/
def group250 : IP := IPv4 224 0 0 250

/-- Go `dst := &net.UDPAddr{IP: group, Port: 1024}` (line 95). -/
def multicast_dst : UDPAddr := { IP := group250, Port := 1024, Zone := "" }

/-- Go `b := make([]byte, 1024)` (line 96): the zeroed read buffer. -/
def multicast_b : List Byte := List.replicate 1024 0

/-- The socket options of an `ipv4.PacketConn` that `multicast` sets.  A new
connection has joined no group, delivers no destination metadata, has no
multicast interface chosen and sends multicast datagrams with TTL 1. -/
structure PacketConn where
  joined : Option (String × IP)
  flagDst : Bool
  multicastInterface : Option String
  multicastTTL : Nat
  closed : Bool
  deriving DecidableEq, Repr

/-- The connection `ipv4.NewPacketConn(c)` of a socket just bound. -/
def PacketConn.new : PacketConn :=
  { joined := none, flagDst := false, multicastInterface := none, multicastTTL := 1,
    closed := false }

/-- Whether each setup call of `multicast` returns a nil error. -/
structure SetupResults where
  InterfaceByName : Bool
  ListenPacket : Bool
  JoinGroup : Bool
  SetControlMessage : Bool
  SetMulticastInterface : Bool
  SetMulticastTTL : Bool
  deriving DecidableEq, Repr

/-- What a call of `multicast` has done: the setup error slot, the connection
(`none` when no socket was bound), whether the two loops were started, and the
state of each loop. -/
structure MulticastRun where
  err_out : Option String
  stdout : List String
  conn : Option PacketConn
  started : Bool
  writer : LoopState
  reader : LoopState
  deriving DecidableEq, Repr

/-- A setup failure of `multicast`: `*err_out = errors.New(text)`,
`fmt.Println(*err_out)`, `return`; the deferred `c.Close()` closes a socket that
was bound.  The loops are not started: their slots keep the caller's values. -/
def multicast_abort (text : String) (conn : Option PacketConn)
    (writer_error reader_error : Option String) : MulticastRun :=
  { err_out := some text
    stdout := [text]
    conn := conn.map (fun p => { p with closed := true })
    started := false
    writer := LoopState.init writer_error
    reader := LoopState.init reader_error }

/-- Go `func multicast(inbound chan string, outbound chan string, err_out *error,
writer_error *error, reader_error *error)` (`src/go_src/main.go`, lines 56-112).

A setup call that succeeds takes effect on the connection; one that fails leaves
the connection as it was.  The result of `p.SetMulticastTTL(2)` is not looked at
(line 93).  `wg.Wait()` returns, and the deferred `c.Close()` runs, once both
loops have returned. -/
def multicast (setup : SetupResults) (outbound : List GoString)
    (writeResults : List WriteResult) (readResults : List ReadResult)
    (err_out writer_error reader_error : Option String) : MulticastRun :=
  if !setup.InterfaceByName then
    multicast_abort "Failed to get InterfaceByName" none writer_error reader_error
  else if !setup.ListenPacket then
    multicast_abort "Failed to get ListenPacket" none writer_error reader_error
  else
    let p := PacketConn.new
    if !setup.JoinGroup then
      multicast_abort "Failed to JoinGroup" (some p) writer_error reader_error
    else
      let p := { p with joined := some ("en0", group250) }
      if !setup.SetControlMessage then
        multicast_abort "Failed to SetControlMessage" (some p) writer_error reader_error
      else
        let p := { p with flagDst := true }
        if !setup.SetMulticastInterface then
          multicast_abort "Failed to SetMulticastInterface" (some p) writer_error reader_error
        else
          let p := { p with multicastInterface := some "en0" }
          let p := if setup.SetMulticastTTL then { p with multicastTTL := 2 } else p
          let writer := multicast_writer multicast_dst outbound writeResults
            (LoopState.init writer_error)
          let reader := multicast_reader group250 readResults (LoopState.init reader_error)
          { err_out := err_out
            stdout := []
            conn := some { p with closed := writer.returned && reader.returned }
            started := true
            writer := writer
            reader := reader }

/-! ## A reliable loopback between the two loops -/

/-- One datagram received into the buffer `b` by a socket of the BSD family:
the bytes of the datagram are copied to the front of the buffer, as many as fit,
the bytes that do not fit are dropped, and the count of bytes copied is
returned. -/
def recvInto (b : List Byte) (datagram : List Byte) : Nat × List Byte :=
  (min datagram.length b.length, datagram.take b.length ++ b.drop datagram.length)

/-- A reliable loopback: every datagram written is returned by one read, in the
order written, with the address it was written to as destination and `src` as
sender; the reads share the buffer `b`. -/
def loopback (src : UDPAddr) : List (List Byte × UDPAddr) → List Byte → List ReadResult
  | [], _ => []
  | (datagram, dst) :: rest, b =>
    .ok (recvInto b datagram).1 (recvInto b datagram).2 { Dst := dst.IP } src
      :: loopback src rest (recvInto b datagram).2

/-- A read that timed out with a `*net.OpError`. -/
def isTimeout (r : ReadResult) : Bool := decide (r = .fail (.opError true))

/-- A read result that ends the Receive Loop: every failed read except a
`*net.OpError` that reports a timeout. -/
def ReadResult.endsLoop : ReadResult → Bool
  | .fail (.opError true) => false
  | .fail _ => true
  | .ok _ _ _ _ => false

/-- The same read result with another sender address. -/
def ReadResult.withSrc (f : UDPAddr → UDPAddr) : ReadResult → ReadResult
  | .ok n b cm src => .ok n b cm (f src)
  | .fail err => .fail err

/-! ## `src/main.go`: the reader goroutine of the interactive program -/

/-- Go `type Message struct { src *net.UDPAddr; msg string }` (lines 104-107). -/
structure Message where
  src : UDPAddr
  msg : GoString
  deriving DecidableEq, Repr

/-- The result `(n_bytes, src, err)` of one `readConnection.ReadFromUDP(buf)`;
`buf` is the content of the buffer when a successful call returns. -/
inductive UDPReadResult
  | ok (n_bytes : Nat) (buf : List Byte) (src : UDPAddr)
  | fail
  deriving DecidableEq, Repr

/-- The state of the reader goroutine: the items pushed onto `readChannel`, in
push order, and whether `log.Fatal(err)` has ended the process. -/
structure ReaderGoroutine where
  pushed : List Message
  fatal : Bool
  deriving DecidableEq, Repr

/-- The reader goroutine of `main` (`src/main.go`, lines 109-119): every
successful read is pushed as `Message{src, string(buf[:n_bytes])}`; a failed read
calls `log.Fatal`. -/
def main_reader : List UDPReadResult → ReaderGoroutine → ReaderGoroutine
  | [], s => s
  | .fail :: _, s => { s with fatal := true }
  | .ok n_bytes buf src :: rest, s =>
    main_reader rest { s with pushed := s.pushed ++ [{ src := src, msg := buf.take n_bytes }] }

/-! ## The queues: Go channels -/

/-- A Go channel `chan T`: the capacity given to `make`, the values sent and not
yet received, the number of goroutines parked in a receive, and the values
handed to receivers so far, in order. -/
structure Chan (α : Type) where
  cap : Nat
  buf : List α
  receivers : Nat
  received : List α
  deriving DecidableEq, Repr

/-- Go `make(chan T, size)`; `make(chan T)` is `make(chan T, 0)`. -/
def make_chan (α : Type) (size : Nat) : Chan α :=
  { cap := size, buf := [], receivers := 0, received := [] }

/-- The send statement `ch <- v`: it proceeds by handing `v` to a parked
receiver, or else by storing `v` when the buffer has room; otherwise (`none`)
the sending goroutine blocks. -/
def Chan.send {α : Type} (ch : Chan α) (v : α) : Option (Chan α) :=
  if 0 < ch.receivers then
    some { ch with receivers := ch.receivers - 1, received := ch.received ++ [v] }
  else if ch.buf.length < ch.cap then
    some { ch with buf := ch.buf ++ [v] }
  else
    none

/-- The receive expression `<- ch` reached by a consumer: it takes the oldest
buffered value, or else parks until a sender arrives. -/
def Chan.recv {α : Type} (ch : Chan α) : Chan α :=
  match ch.buf with
  | v :: rest => { ch with buf := rest, received := ch.received ++ [v] }
  | [] => { ch with receivers := ch.receivers + 1 }

/-- Go `inbound := make(chan string)` (`src/go_src/main.go`, line 135). -/
def inbound : Chan GoString := make_chan GoString 0

/-- Go `outbound := make(chan string)` (`src/go_src/main.go`, line 136). -/
def outbound : Chan GoString := make_chan GoString 0

/-- Go `readChannel := make(chan Message)` (`src/main.go`, line 108). -/
def readChannel : Chan Message := make_chan Message 0

/-- Go `writeChannel := make(chan string)` (`src/main.go`, line 121). -/
def writeChannel : Chan GoString := make_chan GoString 0

/-- A channel as `make(chan T)` creates it and as it stays: no capacity, hence
nothing buffered. -/
def Chan.unbuffered {α : Type} (ch : Chan α) : Prop := ch.cap = 0 ∧ ch.buf = []

/-! ## `src/main.go`: interface selection -/

/-- Go `net.Interface`, with the fields the selection looks at. -/
structure Interface where
  Index : Int
  Name : String
  Flags : Nat
  deriving DecidableEq, Repr

/-- Go `net.FlagUp`, `1 << 0`. -/
def FlagUp : Nat := 1 <<< 0

/-- Go `net.FlagMulticast`, `1 << 4`. -/
def FlagMulticast : Nat := 1 <<< 4

/-- Go `flagUpAndMulticast := net.FlagUp | net.FlagMulticast` (line 28). -/
def flagUpAndMulticast : Nat := FlagUp ||| FlagMulticast

/-- The loop of lines 29-33, from index `i` on, appending to `acc`. -/
def collectAvailable : List Interface → Nat → List Nat → List Nat
  | [], _, acc => acc
  | iface :: rest, i, acc =>
    if iface.Flags &&& flagUpAndMulticast = flagUpAndMulticast then
      collectAvailable rest (i + 1) (acc ++ [i])
    else
      collectAvailable rest (i + 1) acc

/-- Go `availableInterfaceIndexes` after the loop of lines 27-33. -/
def availableInterfaceIndexes (interfaces : List Interface) : List Nat :=
  collectAvailable interfaces 0 []

/-- The prompt loop of lines 42-57.  Each input is the effect of one
`fmt.Scanf("%d", &user_i)`: `some v` stores `v`, `none` (no number could be
read) leaves `user_i` as it was.  The result `none` means that the loop is still
asking when the inputs end. -/
def promptLoop (endAvailableInterfacesIdx : Int) : List (Option Int) → Int → Option Int
  | [], _ => none
  | scan :: rest, user_i =>
    let user_i := match scan with
      | some v => v
      | none => user_i
    if 0 ≤ user_i ∧ user_i ≤ endAvailableInterfacesIdx then
      some user_i
    else
      promptLoop endAvailableInterfacesIdx rest user_i

/-- A Go index expression `xs[i]` with `i` an `int`: `none` is the run-time
panic of an index out of range. -/
def index {α : Type} (xs : List α) (i : Int) : Option α :=
  if 0 ≤ i then xs.get? i.toNat else none

/-- How the interface selection block ends. -/
inductive Selection
  /-- The call `net.Interfaces()` failed: `log.Fatal(err)`. -/
  | fatal
  /-- No candidate: the message is printed and `main` returns. -/
  | noInterfaces
  /-- The inputs ended while the prompt loop was still asking. -/
  | prompting
  /-- An index expression was out of range. -/
  | indexOutOfRange
  /-- The index `user_i` was accepted and the interface looked up. -/
  | selected (user_i : Int) (iface : Interface)
  deriving DecidableEq, Repr

/-- The interface selection of `main` (`src/main.go`, lines 21-58), up to the
lookup `interfaces[availableInterfaceIndexes[user_i]]`.  `interfaces` is the
result of `net.Interfaces()`, `none` when it fails. -/
def interfaceSelection (interfaces : Option (List Interface)) (inputs : List (Option Int)) :
    Selection :=
  match interfaces with
  | none => .fatal
  | some interfaces =>
    let available := availableInterfaceIndexes interfaces
    if available.length = 0 then
      .noInterfaces
    else
      let endAvailableInterfacesIdx : Int := (available.length : Int) - 1
      match promptLoop endAvailableInterfacesIdx inputs 0 with
      | none => .prompting
      | some user_i =>
        match index available user_i with
        | none => .indexOutOfRange
        | some idx =>
          match index interfaces (idx : Int) with
          | none => .indexOutOfRange
          | some iface => .selected user_i iface

/-- Specification side: the interface has both the up flag (bit 0) and the
multicast flag (bit 4) set. -/
def upAndMulticast (iface : Interface) : Prop :=
  iface.Flags.testBit 0 = true ∧ iface.Flags.testBit 4 = true

/-! ## Sample values -/

/-- A loopback interface (up, loopback, running), an Ethernet interface (up,
broadcast, multicast, running), an interface that is multicast capable and down,
and a tunnel that is up and multicast capable. -/
def sampleInterfaces : List Interface :=
  [{ Index := 1, Name := "lo0", Flags := 37 },
   { Index := 2, Name := "en0", Flags := 51 },
   { Index := 3, Name := "en1", Flags := 18 },
   { Index := 4, Name := "utun0", Flags := 17 }]

/-- The user types 5, then something that is no number, then -1, then 1. -/
def sampleInputs : List (Option Int) := [some 5, none, some (-1), some 1]

/-- Every setup call of `multicast` succeeds except `p.SetMulticastTTL(2)`. -/
def setupTTLFails : SetupResults :=
  { InterfaceByName := true
    ListenPacket := true
    JoinGroup := true
    SetControlMessage := true
    SetMulticastInterface := true
    SetMulticastTTL := false }

/-- A peer address. -/
def peerA : UDPAddr := { IP := [192, 168, 1, 5], Port := 50001, Zone := "" }

/-- Another peer address. -/
def peerB : UDPAddr := { IP := [192, 168, 1, 6], Port := 50002, Zone := "" }

/-- A one-byte datagram ("0") read into a four-byte buffer, addressed to the group. -/
def readZero (src : UDPAddr) : ReadResult :=
  .ok 1 [48, 0, 0, 0] { Dst := group250 } src

/-- A one-byte datagram ("0") on the shared port, addressed to another multicast
group, 224.0.0.251. -/
def readOtherGroup (src : UDPAddr) : ReadResult :=
  .ok 1 [48, 0, 0, 0] { Dst := IPv4 224 0 0 251 } src

/-! ## Address comparison: proofs -/

theorem v4InV6Prefix_length : v4InV6Prefix.length = 12 := rfl

theorem prefix_append_eq_iff (x y : List Byte) :
    v4InV6Prefix ++ x = y ↔ y.take 12 = v4InV6Prefix ∧ x = y.drop 12 := by
  constructor
  · intro h
    subst h
    constructor
    · exact List.take_left' v4InV6Prefix_length
    · exact (List.drop_left' v4InV6Prefix_length).symm
  · rintro ⟨h1, h2⟩
    rw [h2, ← h1]
    exact List.take_append_drop 12 y

theorem IP.Equal_iff_canonical (x y : IP) : IP.Equal x y = true ↔ SameIP x y := by
  unfold IP.Equal SameIP canonicalIP IPv4len IPv6len
  by_cases hl : x.length = y.length
  · rw [if_pos hl]
    by_cases h4 : x.length = 4
    · have h4y : y.length = 4 := hl ▸ h4
      simp [h4, h4y]
    · have h4y : ¬ y.length = 4 := fun h => h4 (hl.trans h)
      simp [h4, h4y]
  · rw [if_neg hl]
    by_cases hx : x.length = 4
    · by_cases hy : y.length = 16
      · have hy4 : ¬ y.length = 4 := by omega
        rw [if_pos ⟨hx, hy⟩, if_pos hx, if_neg hy4, prefix_append_eq_iff]
        simp
      · have hy4 : ¬ y.length = 4 := by omega
        have h1 : ¬ (x.length = 4 ∧ y.length = 16) := fun h => hy h.2
        have h2 : ¬ (x.length = 16 ∧ y.length = 4) := fun h => hy4 h.2
        rw [if_neg h1, if_neg h2, if_pos hx, if_neg hy4]
        constructor
        · intro h; exact absurd h (by simp)
        · intro h
          have := congrArg List.length h
          simp [v4InV6Prefix_length, hx] at this
          omega
    · have h1 : ¬ (x.length = 4 ∧ y.length = 16) := fun h => hx h.1
      rw [if_neg h1, if_neg hx]
      by_cases hy : y.length = 4
      · rw [if_pos hy]
        by_cases hx16 : x.length = 16
        · rw [if_pos ⟨hx16, hy⟩]
          have := prefix_append_eq_iff y x
          simp only [Bool.and_eq_true, decide_eq_true_eq]
          constructor
          · rintro ⟨a, b⟩; exact (this.2 ⟨a, b.symm⟩).symm
          · intro h; have := this.1 h.symm; exact ⟨this.1, this.2.symm⟩
        · have h2 : ¬ (x.length = 16 ∧ y.length = 4) := fun h => hx16 h.1
          rw [if_neg h2]
          constructor
          · intro h; exact absurd h (by simp)
          · intro h
            have := congrArg List.length h
            simp [v4InV6Prefix_length, hy] at this
            omega
      · have h2 : ¬ (x.length = 16 ∧ y.length = 4) := fun h => hy h.2
        rw [if_neg h2, if_neg hy]
        constructor
        · intro h; exact absurd h (by simp)
        · intro h; exact absurd (congrArg List.length h) hl

/-- C6: `UDPAddrEqual a b` is true exactly when `a` and `b` have the same IP
(as addresses: an IPv4 address and its 16-byte form are the same) and the same
port; it is true of every address with itself, and false whenever the other
address differs in IP or in port. -/
theorem UDPAddrEqual_iff_same_ip_and_port (a b : UDPAddr) :
    (UDPAddrEqual a b = true ↔ SameIP a.IP b.IP ∧ a.Port = b.Port)
    ∧ UDPAddrEqual a a = true
    ∧ ((¬ SameIP a.IP b.IP ∨ a.Port ≠ b.Port) → UDPAddrEqual a b = false) := by
  have key : UDPAddrEqual a b = true ↔ SameIP a.IP b.IP ∧ a.Port = b.Port := by
    unfold UDPAddrEqual
    rw [Bool.and_eq_true, IP.Equal_iff_canonical, decide_eq_true_eq]
  refine ⟨key, ?_, ?_⟩
  · unfold UDPAddrEqual
    rw [Bool.and_eq_true, IP.Equal_iff_canonical, decide_eq_true_eq]
    exact ⟨rfl, rfl⟩
  · intro h
    cases hE : UDPAddrEqual a b with
    | false => rfl
    | true =>
      have := key.1 hE
      rcases h with h | h
      · exact absurd this.1 h
      · exact absurd this.2 h

/-- Witness of C6: the sender address of an echoed datagram, in 4-byte form,
compares equal to the local address in 16-byte form, and unequal to the address
of another instance on the same host. -/
theorem UDPAddrEqual_iff_same_ip_and_port_witness :
    UDPAddrEqual { IP := [192, 168, 1, 5], Port := 50001, Zone := "" }
        { IP := IPv4 192 168 1 5, Port := 50001, Zone := "" } = true
    ∧ UDPAddrEqual { IP := [192, 168, 1, 5], Port := 50001, Zone := "" }
        { IP := IPv4 192 168 1 5, Port := 50002, Zone := "" } = false :=
  ⟨(UDPAddrEqual_iff_same_ip_and_port _ _).1.2 ⟨by decide, rfl⟩,
    (UDPAddrEqual_iff_same_ip_and_port _ _).2.2 (Or.inr (by decide))⟩

/-! ## Projections of a trace -/

theorem sends_append (a b : List Event) : sends (a ++ b) = sends a ++ sends b := by
  induction a with
  | nil => rfl
  | cons e a ih => cases e <;> simp [sends, ih]

theorem writes_append (a b : List Event) : writes (a ++ b) = writes a ++ writes b := by
  induction a with
  | nil => rfl
  | cons e a ih => cases e <;> simp [writes, ih]

theorem recvs_append (a b : List Event) : recvs (a ++ b) = recvs a ++ recvs b := by
  induction a with
  | nil => rfl
  | cons e a ih => cases e <;> simp [recvs, ih]

theorem reads_append (a b : List Event) : reads (a ++ b) = reads a ++ reads b := by
  induction a with
  | nil => rfl
  | cons e a ih => cases e <;> simp [reads, ih]

theorem assignCount_append (a b : List Event) :
    assignCount (a ++ b) = assignCount a + assignCount b := by
  induction a with
  | nil => simp [assignCount]
  | cons e a ih =>
    cases e
    case assignErr t => simp [assignCount, ih]; omega
    all_goals simp [assignCount, ih]

/-! ## The Receive Loop: proofs -/

/-- While the Receive Loop has not returned, it has left the error slot alone,
the reads it performed are the results it was given, and what it pushed are the
delivered messages of those reads, in order. -/
theorem multicast_reader_running (group : IP) :
    ∀ (rs : List ReadResult) (s : LoopState),
      (multicast_reader group rs s).returned = false →
      (multicast_reader group rs s).err_out = s.err_out
      ∧ assignCount (multicast_reader group rs s).trace = assignCount s.trace
      ∧ reads (multicast_reader group rs s).trace = reads s.trace ++ rs
      ∧ sends (multicast_reader group rs s).trace
          = sends s.trace ++ rs.filterMap (delivered group)
  | [], s, _ => by simp [multicast_reader]
  | .fail (.opError true) :: rest, s, h => by
    simp only [multicast_reader, if_true] at h ⊢
    obtain ⟨h1, h2, h3, h4⟩ := multicast_reader_running group rest _ h
    refine ⟨h1, ?_, ?_, ?_⟩
    · rw [h2]; simp [LoopState.emit, assignCount_append, assignCount]
    · rw [h3]; simp [LoopState.emit, reads_append, reads]
    · rw [h4]; simp [LoopState.emit, sends_append, sends, delivered]
  | .fail (.opError false) :: rest, s, h => by
    simp [multicast_reader, LoopState.fatal] at h
  | .fail (.other t) :: rest, s, h => by
    simp [multicast_reader, LoopState.fatal] at h
  | .ok n b cm src :: rest, s, h => by
    simp only [multicast_reader] at h ⊢
    by_cases hc : (IP.IsMulticast cm.Dst && IP.Equal cm.Dst group) = true
    · rw [if_pos hc] at h ⊢
      obtain ⟨h1, h2, h3, h4⟩ := multicast_reader_running group rest _ h
      have hc2 : IP.IsMulticast cm.Dst = true ∧ IP.Equal cm.Dst group = true := by
        simpa using hc
      refine ⟨h1, ?_, ?_, ?_⟩
      · rw [h2]; simp [LoopState.emit, assignCount_append, assignCount]
      · rw [h3]; simp [LoopState.emit, reads_append, reads]
      · rw [h4]; simp [LoopState.emit, sends_append, sends, delivered, hc2]
    · rw [if_neg hc] at h ⊢
      obtain ⟨h1, h2, h3, h4⟩ := multicast_reader_running group rest _ h
      have hc2 : ¬ (IP.IsMulticast cm.Dst = true ∧ IP.Equal cm.Dst group = true) := by
        simpa using hc
      refine ⟨h1, ?_, ?_, ?_⟩
      · rw [h2]; simp [LoopState.emit, assignCount_append, assignCount]
      · rw [h3]; simp [LoopState.emit, reads_append, reads]
      · rw [h4]; simp [LoopState.emit, sends_append, sends, delivered, hc2]

/-- A Receive Loop still running after the reads `pre` goes on with the next
reads from the state it has reached. -/
theorem multicast_reader_append (group : IP) (rest : List ReadResult) :
    ∀ (pre : List ReadResult) (s : LoopState),
      (multicast_reader group pre s).returned = false →
      multicast_reader group (pre ++ rest) s
        = multicast_reader group rest (multicast_reader group pre s)
  | [], s, _ => by simp [multicast_reader]
  | .fail (.opError true) :: pre, s, h => by
    simp only [multicast_reader, if_true, List.cons_append] at h ⊢
    exact multicast_reader_append group rest pre _ h
  | .fail (.opError false) :: pre, s, h => by
    simp [multicast_reader, LoopState.fatal] at h
  | .fail (.other t) :: pre, s, h => by
    simp [multicast_reader, LoopState.fatal] at h
  | .ok n b cm src :: pre, s, h => by
    rw [List.cons_append]
    by_cases hc : (IP.IsMulticast cm.Dst && IP.Equal cm.Dst group) = true
    · simp only [multicast_reader, if_pos hc] at h ⊢
      exact multicast_reader_append group rest pre _ h
    · simp only [multicast_reader, if_neg hc] at h ⊢
      exact multicast_reader_append group rest pre _ h

/-- Whatever the Receive Loop does, it only appends to its trace. -/
theorem multicast_reader_trace_extends (group : IP) :
    ∀ (rs : List ReadResult) (s : LoopState),
      ∃ t, (multicast_reader group rs s).trace = s.trace ++ t
  | [], s => ⟨[], by simp [multicast_reader]⟩
  | .fail (.opError true) :: rest, s => by
    obtain ⟨t, ht⟩ := multicast_reader_trace_extends group rest
      ((s.emit (readEvents (.fail (.opError true)))).emit [.Println "ReadFrom Timed Out at: " []])
    refine ⟨readEvents (.fail (.opError true)) ++ ([.Println "ReadFrom Timed Out at: " []] ++ t), ?_⟩
    simp only [multicast_reader, if_true]
    rw [readEvents] at ht
    rw [ht]
    simp only [LoopState.emit, readEvents, List.append_assoc]
  | .fail (.opError false) :: rest, s =>
    ⟨readEvents (.fail (.opError false)) ++ [.assignErr "Failed to ReadFrom",
        .Println "Failed to ReadFrom" [], .ret],
      by simp only [multicast_reader, LoopState.fatal, LoopState.emit, readEvents,
        List.append_assoc]; rfl⟩
  | .fail (.other t) :: rest, s =>
    ⟨readEvents (.fail (.other t)) ++ [.assignErr "Failed to ReadFrom with non net.OpError",
        .Println "Failed to ReadFrom with non net.OpError" [], .ret],
      by simp only [multicast_reader, LoopState.fatal, LoopState.emit, readEvents,
        List.append_assoc]⟩
  | .ok n b cm src :: rest, s => by
    by_cases hc : (IP.IsMulticast cm.Dst && IP.Equal cm.Dst group) = true
    · obtain ⟨t, ht⟩ := multicast_reader_trace_extends group rest
        ((s.emit (readEvents (.ok n b cm src))).emit
          [.send (b.take n), .Println "Recieved: " (b.take n)])
      refine ⟨readEvents (.ok n b cm src)
        ++ ([.send (b.take n), .Println "Recieved: " (b.take n)] ++ t), ?_⟩
      simp only [multicast_reader, if_pos hc]
      rw [readEvents] at ht
      rw [ht]
      simp only [LoopState.emit, readEvents, List.append_assoc]
    · obtain ⟨t, ht⟩ := multicast_reader_trace_extends group rest
        (s.emit (readEvents (.ok n b cm src)))
      refine ⟨readEvents (.ok n b cm src) ++ t, ?_⟩
      simp only [multicast_reader, if_neg hc]
      rw [readEvents] at ht
      rw [ht]
      simp only [LoopState.emit, readEvents, List.append_assoc]

/-- Every iteration of the Receive Loop begins by arming the deadline and
performing the read. -/
theorem multicast_reader_next_read (group : IP) (r : ReadResult) (rest : List ReadResult)
    (s : LoopState) :
    ∃ t, (multicast_reader group (r :: rest) s).trace = s.trace ++ readEvents r ++ t := by
  cases r with
  | fail err =>
    cases err with
    | opError timeout =>
      cases timeout with
      | true =>
        obtain ⟨t, ht⟩ := multicast_reader_trace_extends group rest
          ((s.emit (readEvents (.fail (.opError true)))).emit
            [.Println "ReadFrom Timed Out at: " []])
        refine ⟨[.Println "ReadFrom Timed Out at: " []] ++ t, ?_⟩
        simp only [multicast_reader, if_true]
        rw [readEvents] at ht
        rw [ht]
        simp only [LoopState.emit, readEvents, List.append_assoc]
      | false =>
        exact ⟨[.assignErr "Failed to ReadFrom", .Println "Failed to ReadFrom" [], .ret],
          by simp only [multicast_reader, LoopState.fatal, LoopState.emit, readEvents,
            List.append_assoc]; rfl⟩
    | other t =>
      exact ⟨[.assignErr "Failed to ReadFrom with non net.OpError",
          .Println "Failed to ReadFrom with non net.OpError" [], .ret],
        by simp only [multicast_reader, LoopState.fatal, LoopState.emit, readEvents,
          List.append_assoc]⟩
  | ok n b cm src =>
    by_cases hc : (IP.IsMulticast cm.Dst && IP.Equal cm.Dst group) = true
    · obtain ⟨t, ht⟩ := multicast_reader_trace_extends group rest
        ((s.emit (readEvents (.ok n b cm src))).emit
          [.send (b.take n), .Println "Recieved: " (b.take n)])
      refine ⟨[.send (b.take n), .Println "Recieved: " (b.take n)] ++ t, ?_⟩
      simp only [multicast_reader, if_pos hc]
      rw [readEvents] at ht
      rw [ht]
      simp only [LoopState.emit, readEvents, List.append_assoc]
    · obtain ⟨t, ht⟩ := multicast_reader_trace_extends group rest
        (s.emit (readEvents (.ok n b cm src)))
      refine ⟨t, ?_⟩
      simp only [multicast_reader, if_neg hc]
      rw [readEvents] at ht
      rw [ht]
      simp only [LoopState.emit, readEvents, List.append_assoc]

/-- The Receive Loop has returned exactly when one of its reads ended it. -/
theorem multicast_reader_returned_eq (group : IP) :
    ∀ (rs : List ReadResult) (s : LoopState), s.returned = false →
      (multicast_reader group rs s).returned = rs.any ReadResult.endsLoop
  | [], s, h => by simp [multicast_reader, h]
  | .fail (.opError true) :: rest, s, h => by
    simp only [multicast_reader, if_true, List.any_cons, ReadResult.endsLoop, Bool.false_or]
    exact multicast_reader_returned_eq group rest _ (by simpa [LoopState.emit] using h)
  | .fail (.opError false) :: rest, s, _ => by
    simp [multicast_reader, LoopState.fatal, ReadResult.endsLoop]
  | .fail (.other t) :: rest, s, _ => by
    simp [multicast_reader, LoopState.fatal, ReadResult.endsLoop]
  | .ok n b cm src :: rest, s, h => by
    simp only [List.any_cons, ReadResult.endsLoop, Bool.false_or]
    by_cases hc : (IP.IsMulticast cm.Dst && IP.Equal cm.Dst group) = true
    · simp only [multicast_reader, if_pos hc]
      exact multicast_reader_returned_eq group rest _ (by simpa [LoopState.emit] using h)
    · simp only [multicast_reader, if_neg hc]
      exact multicast_reader_returned_eq group rest _ (by simpa [LoopState.emit] using h)

/-- The Receive Loop at a failed read other than a `*net.OpError` timeout: it
takes one of the two fatal branches. -/
theorem multicast_reader_fatal_step (group : IP) (e : ReadErr) (rest : List ReadResult)
    (s : LoopState) (he : e ≠ .opError true) :
    multicast_reader group (.fail e :: rest) s
      = (s.emit (readEvents (.fail e))).fatal (fatalText e) := by
  cases e with
  | opError t =>
    cases t with
    | true => exact absurd rfl he
    | false => simp [multicast_reader, readEvents, fatalText]
  | other t => simp [multicast_reader, readEvents, fatalText]

/-- A Receive Loop given only successful reads and `*net.OpError` timeouts has
not returned. -/
theorem multicast_reader_running_of_reads (group : IP) (rs : List ReadResult)
    (err0 : Option String) (hrs : ∀ r ∈ rs, r.endsLoop = false) :
    (multicast_reader group rs (LoopState.init err0)).returned = false := by
  rw [multicast_reader_returned_eq group rs _ rfl, Bool.eq_false_iff]
  intro hany
  obtain ⟨r, hr, hends⟩ := List.any_eq_true.1 hany
  rw [hrs r hr] at hends
  exact Bool.noConfusion hends

/-- What the Receive Loop has done when, after reads `pre` that did not end it,
a read fails with an error other than a `*net.OpError` timeout. -/
theorem multicast_reader_fatal_after (group : IP) (pre rest : List ReadResult) (e : ReadErr)
    (err0 : Option String) (hpre : ∀ r ∈ pre, r.endsLoop = false) (he : e ≠ .opError true) :
    (multicast_reader group (pre ++ .fail e :: rest) (LoopState.init err0)).returned = true
    ∧ (multicast_reader group (pre ++ .fail e :: rest) (LoopState.init err0)).err_out
        = some (fatalText e)
    ∧ (multicast_reader group (pre ++ .fail e :: rest) (LoopState.init err0)).trace
        = (multicast_reader group pre (LoopState.init err0)).trace ++ readEvents (.fail e)
          ++ [.assignErr (fatalText e), .Println (fatalText e) [], .ret]
    ∧ assignCount (multicast_reader group (pre ++ .fail e :: rest) (LoopState.init err0)).trace
        = 1
    ∧ reads (multicast_reader group (pre ++ .fail e :: rest) (LoopState.init err0)).trace
        = pre ++ [.fail e]
    ∧ sends (multicast_reader group (pre ++ .fail e :: rest) (LoopState.init err0)).trace
        = pre.filterMap (delivered group) := by
  have hrun := multicast_reader_running_of_reads group pre err0 hpre
  obtain ⟨_, h2, h3, h4⟩ := multicast_reader_running group pre (LoopState.init err0) hrun
  rw [multicast_reader_append group _ pre _ hrun, multicast_reader_fatal_step group e rest _ he]
  refine ⟨rfl, rfl, ?_, ?_, ?_, ?_⟩
  · simp [LoopState.fatal, LoopState.emit]
  · simp only [LoopState.fatal, LoopState.emit, assignCount_append, h2]
    simp [LoopState.init, readEvents, assignCount]
  · simp only [LoopState.fatal, LoopState.emit, reads_append, h3]
    simp [LoopState.init, readEvents, reads]
  · simp only [LoopState.fatal, LoopState.emit, sends_append, h4]
    simp [LoopState.init, readEvents, sends]

/-- Counterexample to C1: of two failed reads, the first reports a timeout and
is not a `*net.OpError`, the second is the first to fail with a non-timeout
error.  The loop stops at the first read and never performs the second: it does
not stop at the first read that fails with a non-timeout error. -/
theorem multicast_reader_stops_before_first_non_timeout_error :
    (ReadErr.other true).Timeout = true
    ∧ (ReadErr.opError false).Timeout = false
    ∧ reads (multicast_reader group250 [.fail (.other true), .fail (.opError false)]
        (LoopState.init none)).trace = [.fail (.other true)]
    ∧ ¬ (reads (multicast_reader group250 [.fail (.other true), .fail (.opError false)]
          (LoopState.init none)).trace = [.fail (.other true), .fail (.opError false)]
        ∧ (multicast_reader group250 [.fail (.other true), .fail (.opError false)]
          (LoopState.init none)).err_out = some "Failed to ReadFrom") := by
  decide

/-- C1 (amended): for every sequence of read results, the Receive Loop stops at
the first read that fails with an error other than a `*net.OpError` reporting a
timeout, that is, with a non-timeout error of any type or with a timeout error
of another concrete type.  After reads `pre` that are successes or
`*net.OpError` timeouts, at such a failed read the loop has returned, the error
slot holds the fatal error and was assigned exactly once, the trace ends with
that read followed by the assignment, the diagnostic and the return, the reads
performed are `pre` and the failed one, none of `rest`, and the pushes are those
of `pre`. -/
theorem multicast_reader_stops_at_first_fatal_read (group : IP) (pre rest : List ReadResult)
    (e : ReadErr) (err0 : Option String)
    (hpre : ∀ r ∈ pre, (∃ n b cm src, r = .ok n b cm src) ∨ r = .fail (.opError true))
    (he : e.Timeout = false ∨ ∃ t, e = .other t) :
    (multicast_reader group (pre ++ .fail e :: rest) (LoopState.init err0)).returned = true
    ∧ (multicast_reader group (pre ++ .fail e :: rest) (LoopState.init err0)).err_out
        = some (fatalText e)
    ∧ (multicast_reader group (pre ++ .fail e :: rest) (LoopState.init err0)).trace
        = (multicast_reader group pre (LoopState.init err0)).trace ++ readEvents (.fail e)
          ++ [.assignErr (fatalText e), .Println (fatalText e) [], .ret]
    ∧ assignCount (multicast_reader group (pre ++ .fail e :: rest) (LoopState.init err0)).trace
        = 1
    ∧ reads (multicast_reader group (pre ++ .fail e :: rest) (LoopState.init err0)).trace
        = pre ++ [.fail e]
    ∧ sends (multicast_reader group (pre ++ .fail e :: rest) (LoopState.init err0)).trace
        = pre.filterMap (delivered group) := by
  have hpre2 : ∀ r ∈ pre, r.endsLoop = false := by
    intro r hr
    rcases hpre r hr with ⟨n, b, cm, src, h⟩ | h
    · subst h; rfl
    · subst h; rfl
  have he2 : e ≠ .opError true := by
    intro h
    subst h
    rcases he with h | ⟨t, h⟩
    · exact Bool.noConfusion h
    · exact ReadErr.noConfusion h
  exact multicast_reader_fatal_after group pre rest e err0 hpre2 he2

/-- Witness of C1 (amended): a delivered datagram and a `*net.OpError` timeout,
then a non-timeout `*net.OpError`; the datagram after it is never read. -/
theorem multicast_reader_stops_at_first_fatal_read_witness :
    (multicast_reader group250
        ([readZero peerA, .fail (.opError true)] ++ .fail (.opError false) :: [readZero peerB])
        (LoopState.init none)).returned = true
    ∧ reads (multicast_reader group250
        ([readZero peerA, .fail (.opError true)] ++ .fail (.opError false) :: [readZero peerB])
        (LoopState.init none)).trace
        = [readZero peerA, .fail (.opError true)] ++ [.fail (.opError false)] :=
  have h := multicast_reader_stops_at_first_fatal_read group250
    [readZero peerA, .fail (.opError true)] [readZero peerB] (.opError false) none
    (by
      intro r hr
      simp only [List.mem_cons, List.mem_singleton, List.not_mem_nil, or_false] at hr
      rcases hr with h | h
      · exact Or.inl ⟨1, [48, 0, 0, 0], { Dst := group250 }, peerA, h⟩
      · exact Or.inr h)
    (Or.inl rfl)
  ⟨h.1, h.2.2.2.2.1⟩

/-- Counterexample to C2: a read error that reports a timeout and is not a
`*net.OpError` ends the Receive Loop and overwrites the error slot. -/
theorem multicast_reader_timeout_of_other_type_is_fatal :
    (ReadErr.other true).Timeout = true
    ∧ ¬ ((multicast_reader group250 [.fail (.other true)] (LoopState.init none)).returned = false
        ∧ (multicast_reader group250 [.fail (.other true)] (LoopState.init none)).err_out
            = none) := by
  decide

/-- C2 (amended): after reads `pre` that are successes or `*net.OpError`
timeouts, a read that fails with a `*net.OpError` reporting a timeout does not
end the Receive Loop: the loop has not returned, the error slot is as the caller
left it, nothing is pushed, the timeout is only logged, and the next iteration
begins by arming the deadline and reading.  A read that fails with an error of
another concrete type is fatal whatever it reports, a timeout included: the loop
returns there, the slot holds "Failed to ReadFrom with non net.OpError" and was
assigned once, and no later read is performed. -/
theorem multicast_reader_continues_on_opError_timeout (group : IP) (pre : List ReadResult)
    (err0 : Option String)
    (hpre : ∀ r ∈ pre, (∃ n b cm src, r = .ok n b cm src) ∨ r = .fail (.opError true)) :
    ((multicast_reader group (pre ++ [.fail (.opError true)]) (LoopState.init err0)).returned
        = false
      ∧ (multicast_reader group (pre ++ [.fail (.opError true)]) (LoopState.init err0)).err_out
        = err0
      ∧ (multicast_reader group (pre ++ [.fail (.opError true)]) (LoopState.init err0)).trace
        = (multicast_reader group pre (LoopState.init err0)).trace
          ++ readEvents (.fail (.opError true)) ++ [.Println "ReadFrom Timed Out at: " []]
      ∧ sends (multicast_reader group (pre ++ [.fail (.opError true)])
          (LoopState.init err0)).trace
        = sends (multicast_reader group pre (LoopState.init err0)).trace
      ∧ ∀ (r : ReadResult) (rest : List ReadResult), ∃ t,
          (multicast_reader group (pre ++ .fail (.opError true) :: r :: rest)
              (LoopState.init err0)).trace
            = (multicast_reader group (pre ++ [.fail (.opError true)])
                (LoopState.init err0)).trace ++ readEvents r ++ t)
    ∧ (∀ (timeout : Bool) (rest : List ReadResult),
        (multicast_reader group (pre ++ .fail (.other timeout) :: rest)
            (LoopState.init err0)).returned = true
        ∧ (multicast_reader group (pre ++ .fail (.other timeout) :: rest)
            (LoopState.init err0)).err_out = some "Failed to ReadFrom with non net.OpError"
        ∧ (multicast_reader group (pre ++ .fail (.other timeout) :: rest)
            (LoopState.init err0)).trace
          = (multicast_reader group pre (LoopState.init err0)).trace
            ++ readEvents (.fail (.other timeout))
            ++ [.assignErr "Failed to ReadFrom with non net.OpError",
                .Println "Failed to ReadFrom with non net.OpError" [], .ret]
        ∧ assignCount (multicast_reader group (pre ++ .fail (.other timeout) :: rest)
            (LoopState.init err0)).trace = 1
        ∧ reads (multicast_reader group (pre ++ .fail (.other timeout) :: rest)
            (LoopState.init err0)).trace = pre ++ [.fail (.other timeout)]) := by
  have hpre2 : ∀ r ∈ pre, r.endsLoop = false := by
    intro r hr
    rcases hpre r hr with ⟨n, b, cm, src, h⟩ | h
    · subst h; rfl
    · subst h; rfl
  have hrun := multicast_reader_running_of_reads group pre err0 hpre2
  obtain ⟨h1, _, _, _⟩ := multicast_reader_running group pre (LoopState.init err0) hrun
  have hstep : multicast_reader group (pre ++ [.fail (.opError true)]) (LoopState.init err0)
      = ((multicast_reader group pre (LoopState.init err0)).emit
          (readEvents (.fail (.opError true)))).emit [.Println "ReadFrom Timed Out at: " []] := by
    rw [multicast_reader_append group _ pre _ hrun]
    simp [multicast_reader, readEvents]
  have hrun2 : (multicast_reader group (pre ++ [.fail (.opError true)])
      (LoopState.init err0)).returned = false := by
    rw [hstep]; simpa [LoopState.emit] using hrun
  refine ⟨⟨hrun2, ?_, ?_, ?_, ?_⟩, ?_⟩
  · rw [hstep]; simpa [LoopState.emit, LoopState.init] using h1
  · rw [hstep]; simp [LoopState.emit]
  · rw [hstep]; simp [LoopState.emit, sends_append, readEvents, sends]
  · intro r rest
    have happ : pre ++ .fail (.opError true) :: r :: rest
        = (pre ++ [.fail (.opError true)]) ++ (r :: rest) := by simp
    rw [happ, multicast_reader_append group _ _ _ hrun2]
    exact multicast_reader_next_read group r rest _
  · intro timeout rest
    obtain ⟨f1, f2, f3, f4, f5, _⟩ := multicast_reader_fatal_after group pre rest
      (.other timeout) err0 hpre2 (fun h => ReadErr.noConfusion h)
    exact ⟨f1, f2, f3, f4, f5⟩

/-- Witness of C2 (amended): after a delivered datagram, a `*net.OpError`
timeout leaves the loop running and the slot nil. -/
theorem multicast_reader_continues_on_opError_timeout_witness :
    (multicast_reader group250 ([readZero peerA] ++ [.fail (.opError true)])
        (LoopState.init none)).returned = false
    ∧ (multicast_reader group250 ([readZero peerA] ++ [.fail (.opError true)])
        (LoopState.init none)).err_out = none
    ∧ (multicast_reader group250 ([readZero peerA] ++ .fail (.other true) :: [readZero peerB])
        (LoopState.init none)).returned = true :=
  have h := multicast_reader_continues_on_opError_timeout group250 [readZero peerA] none
    (by
      intro r hr
      simp only [List.mem_singleton] at hr
      exact Or.inl ⟨1, [48, 0, 0, 0], { Dst := group250 }, peerA, hr⟩)
  ⟨h.1.1, h.1.2.1, (h.2 true [readZero peerB]).1⟩

/-- C4: while no read has ended the Receive Loop, the reads performed are the
results given, and the messages pushed onto the inbound queue are, in the same
order, the first `n` bytes of the buffer of exactly those successful reads whose
destination is a multicast address equal to the group: one more such read
pushes its payload, and a successful read with another destination pushes
nothing. -/
theorem multicast_reader_pushes_matching_payloads (group : IP) (rs : List ReadResult)
    (err0 : Option String)
    (hrun : (multicast_reader group rs (LoopState.init err0)).returned = false) :
    sends (multicast_reader group rs (LoopState.init err0)).trace
        = rs.filterMap (delivered group)
    ∧ reads (multicast_reader group rs (LoopState.init err0)).trace = rs
    ∧ (∀ n b cm src, IP.IsMulticast cm.Dst = true → IP.Equal cm.Dst group = true →
        sends (multicast_reader group (rs ++ [.ok n b cm src]) (LoopState.init err0)).trace
          = sends (multicast_reader group rs (LoopState.init err0)).trace ++ [b.take n])
    ∧ (∀ n b cm src, ¬ (IP.IsMulticast cm.Dst = true ∧ IP.Equal cm.Dst group = true) →
        sends (multicast_reader group (rs ++ [.ok n b cm src]) (LoopState.init err0)).trace
          = sends (multicast_reader group rs (LoopState.init err0)).trace) := by
  obtain ⟨_, _, h3, h4⟩ := multicast_reader_running group rs (LoopState.init err0) hrun
  refine ⟨?_, ?_, ?_, ?_⟩
  · rw [h4]; simp [LoopState.init, sends]
  · rw [h3]; simp [LoopState.init, reads]
  · intro n b cm src hm he
    have hc : (IP.IsMulticast cm.Dst && IP.Equal cm.Dst group) = true := by simp [hm, he]
    rw [multicast_reader_append group _ rs _ hrun]
    simp only [multicast_reader, if_pos hc]
    simp [LoopState.emit, sends_append, sends]
  · intro n b cm src hne
    have hc : ¬ (IP.IsMulticast cm.Dst && IP.Equal cm.Dst group) = true := by simpa using hne
    rw [multicast_reader_append group _ rs _ hrun]
    simp only [multicast_reader, if_neg hc]
    simp [LoopState.emit, sends_append, sends]

/-- Witness of C4: of four reads, the two addressed to the group are pushed. -/
theorem multicast_reader_pushes_matching_payloads_witness :
    (multicast_reader group250
        [readZero peerA, readOtherGroup peerB, .fail (.opError true), readZero peerB]
        (LoopState.init none)).returned = false
    ∧ sends (multicast_reader group250
        [readZero peerA, readOtherGroup peerB, .fail (.opError true), readZero peerB]
        (LoopState.init none)).trace = [[48], [48]] :=
  have h := multicast_reader_pushes_matching_payloads group250
    [readZero peerA, readOtherGroup peerB, .fail (.opError true), readZero peerB] none
    (by decide)
  ⟨by decide, h.1.trans (by decide)⟩

/-! ## Sender addresses: proofs -/

/-- What the Receive Loop pushes does not depend on the sender addresses the
reads report. -/
theorem multicast_reader_sends_withSrc (group : IP) (f : UDPAddr → UDPAddr) :
    ∀ (rs : List ReadResult) (s s' : LoopState), sends s.trace = sends s'.trace →
      sends (multicast_reader group (rs.map (ReadResult.withSrc f)) s).trace
        = sends (multicast_reader group rs s').trace
  | [], s, s', h => by simpa [multicast_reader] using h
  | .fail (.opError true) :: rest, s, s', h => by
    simp only [List.map_cons, ReadResult.withSrc, multicast_reader, if_true]
    apply multicast_reader_sends_withSrc group f rest
    simp [LoopState.emit, sends_append, sends, h]
  | .fail (.opError false) :: rest, s, s', h => by
    simp [ReadResult.withSrc, multicast_reader, LoopState.fatal, LoopState.emit, sends_append,
      sends, h]
  | .fail (.other t) :: rest, s, s', h => by
    simp [ReadResult.withSrc, multicast_reader, LoopState.fatal, LoopState.emit, sends_append,
      sends, h]
  | .ok n b cm src :: rest, s, s', h => by
    by_cases hc : (IP.IsMulticast cm.Dst && IP.Equal cm.Dst group) = true
    · simp only [List.map_cons, ReadResult.withSrc, multicast_reader, if_pos hc]
      apply multicast_reader_sends_withSrc group f rest
      simp [LoopState.emit, sends_append, sends, h]
    · simp only [List.map_cons, ReadResult.withSrc, multicast_reader, if_neg hc]
      apply multicast_reader_sends_withSrc group f rest
      simp [LoopState.emit, sends_append, sends, h]

/-- The reader goroutine of the interactive program, still alive after the
reads `pre`, goes on from the state it has reached. -/
theorem main_reader_append (rest : List UDPReadResult) :
    ∀ (pre : List UDPReadResult) (s : ReaderGoroutine), (main_reader pre s).fatal = false →
      main_reader (pre ++ rest) s = main_reader rest (main_reader pre s)
  | [], s, _ => by simp [main_reader]
  | .fail :: pre, s, h => by simp [main_reader] at h
  | .ok n buf src :: pre, s, h => by
    simp only [List.cons_append, main_reader] at h ⊢
    exact main_reader_append rest pre _ h

/-- Counterexample to C7: two datagrams with the same payload from different
senders, delivered by `multicast_reader`, are pushed as the same inbound item. -/
theorem multicast_reader_drops_sender :
    peerA ≠ peerB
    ∧ sends (multicast_reader group250 [readZero peerA] (LoopState.init none)).trace = [[48]]
    ∧ sends (multicast_reader group250 [readZero peerB] (LoopState.init none)).trace = [[48]] := by
  decide

/-- C7 (amended): the reader goroutine of the interactive program pushes, for
every datagram it reads, the sender address reported by the read together with
the payload, so that two datagrams with the same payload and different senders
give different items; `multicast_reader` pushes the payload alone, and what it
pushes is the same whatever the sender addresses are. -/
theorem sender_carried_on_readChannel_not_on_inbound :
    (∀ (pre : List UDPReadResult) (n : Nat) (buf : List Byte) (src : UDPAddr)
        (s : ReaderGoroutine), (main_reader pre s).fatal = false →
        (main_reader (pre ++ [.ok n buf src]) s).pushed
          = (main_reader pre s).pushed ++ [{ src := src, msg := buf.take n }])
    ∧ (∀ (pre : List UDPReadResult) (n : Nat) (buf : List Byte) (src src' : UDPAddr)
        (s : ReaderGoroutine), (main_reader pre s).fatal = false → src ≠ src' →
        (main_reader (pre ++ [.ok n buf src]) s).pushed
          ≠ (main_reader (pre ++ [.ok n buf src']) s).pushed)
    ∧ (∀ (group : IP) (rs : List ReadResult) (f : UDPAddr → UDPAddr) (err0 : Option String),
        sends (multicast_reader group (rs.map (ReadResult.withSrc f))
            (LoopState.init err0)).trace
          = sends (multicast_reader group rs (LoopState.init err0)).trace) := by
  have push : ∀ (pre : List UDPReadResult) (n : Nat) (buf : List Byte) (src : UDPAddr)
      (s : ReaderGoroutine), (main_reader pre s).fatal = false →
      (main_reader (pre ++ [.ok n buf src]) s).pushed
        = (main_reader pre s).pushed ++ [{ src := src, msg := buf.take n }] := by
    intro pre n buf src s h
    rw [main_reader_append _ pre s h]
    simp [main_reader]
  refine ⟨push, ?_, ?_⟩
  · intro pre n buf src src' s h hne heq
    rw [push pre n buf src s h, push pre n buf src' s h] at heq
    have := List.append_cancel_left heq
    simp only [List.cons.injEq, Message.mk.injEq, and_true] at this
    exact hne this
  · intro group rs f err0
    exact multicast_reader_sends_withSrc group f rs _ _ rfl

/-- Witness of C7 (amended): the same payload read from two senders. -/
theorem sender_carried_on_readChannel_not_on_inbound_witness :
    (main_reader [] { pushed := [], fatal := false }).fatal = false
    ∧ peerA ≠ peerB
    ∧ (main_reader ([] ++ [.ok 1 [48, 0] peerA]) { pushed := [], fatal := false }).pushed
        ≠ (main_reader ([] ++ [.ok 1 [48, 0] peerB]) { pushed := [], fatal := false }).pushed :=
  ⟨rfl, by decide,
    sender_carried_on_readChannel_not_on_inbound.2.1 [] 1 [48, 0] peerA peerB
      { pushed := [], fatal := false } rfl (by decide)⟩

/-! ## The Transmit Loop: proofs -/

theorem writes_sentTrace (dst : UDPAddr) :
    ∀ ms : List GoString, writes (sentTrace dst ms) = ms.map (fun m => (m, dst))
  | [] => rfl
  | m :: ms => by simp [sentTrace, sentEvents, writes, writes_sentTrace dst ms]

theorem recvs_sentTrace (dst : UDPAddr) : ∀ ms : List GoString, recvs (sentTrace dst ms) = ms
  | [] => rfl
  | m :: ms => by simp [sentTrace, sentEvents, recvs, recvs_sentTrace dst ms]

theorem assignCount_sentTrace (dst : UDPAddr) :
    ∀ ms : List GoString, assignCount (sentTrace dst ms) = 0
  | [] => rfl
  | m :: ms => by simp [sentTrace, sentEvents, assignCount, assignCount_sentTrace dst ms]

/-- The Transmit Loop pops and writes the payloads `pre` one after the other
while their writes succeed, and goes on from there. -/
theorem multicast_writer_ok_run (dst : UDPAddr) (rest : List GoString)
    (results : List WriteResult) :
    ∀ (pre : List GoString) (rsPre : List WriteResult) (s : LoopState),
      rsPre.length = pre.length → (∀ r ∈ rsPre, r.isOk = true) →
      multicast_writer dst (pre ++ rest) (rsPre ++ results) s
        = multicast_writer dst rest results (s.emit (sentTrace dst pre))
  | [], [], s, _, _ => by simp [sentTrace, LoopState.emit]
  | [], _ :: _, s, hlen, _ => by simp at hlen
  | _ :: _, [], s, hlen, _ => by simp at hlen
  | m :: pre, .fail e :: rsPre, s, _, hok => by
    have := hok (.fail e) (by simp)
    simp [WriteResult.isOk] at this
  | m :: pre, .ok n :: rsPre, s, hlen, hok => by
    have hlen2 : rsPre.length = pre.length := by simpa using hlen
    have hok2 : ∀ r ∈ rsPre, r.isOk = true := fun r hr => hok r (by simp [hr])
    have ih := multicast_writer_ok_run dst rest results pre rsPre
      ((s.emit [.recv m, .WriteTo m dst]).emit [.Println "Sent: " m]) hlen2 hok2
    rw [List.cons_append, List.cons_append, multicast_writer, ih]
    simp [LoopState.emit, sentTrace, sentEvents]

/-- The Transmit Loop whose writes all succeed has written every payload and is
still running. -/
theorem multicast_writer_all_ok (dst : UDPAddr) (err0 : Option String)
    (payloads : List GoString) (rs more : List WriteResult)
    (hlen : rs.length = payloads.length) (hok : ∀ r ∈ rs, r.isOk = true) :
    multicast_writer dst payloads (rs ++ more) (LoopState.init err0)
      = { err_out := err0, trace := sentTrace dst payloads, returned := false } := by
  have := multicast_writer_ok_run dst [] more payloads rs (LoopState.init err0) hlen hok
  rw [List.append_nil] at this
  rw [this]
  simp [multicast_writer, LoopState.emit, LoopState.init]

/-- C3: the Transmit Loop performs one write per popped payload, in pop order
and with the payload as bytes, up to and including the first write that fails;
there it assigns its error slot once and returns, so that the failing payload is
not written again and no later payload is popped or written.  While every write
succeeds, all payloads are written in order and the error slot is untouched. -/
theorem multicast_writer_fifo_until_first_failure (dst : UDPAddr) (err0 : Option String) :
    (∀ (pre : List GoString) (m : GoString) (post : List GoString)
        (rsPre : List WriteResult) (e : String) (rsPost : List WriteResult),
        rsPre.length = pre.length → (∀ r ∈ rsPre, r.isOk = true) →
        multicast_writer dst (pre ++ m :: post) (rsPre ++ .fail e :: rsPost)
            (LoopState.init err0)
          = { err_out := some "Failed to WriteTo"
              trace := sentTrace dst pre ++ failedWriteEvents dst m
              returned := true }
        ∧ writes (multicast_writer dst (pre ++ m :: post) (rsPre ++ .fail e :: rsPost)
            (LoopState.init err0)).trace = (pre ++ [m]).map (fun p => (p, dst))
        ∧ recvs (multicast_writer dst (pre ++ m :: post) (rsPre ++ .fail e :: rsPost)
            (LoopState.init err0)).trace = pre ++ [m]
        ∧ assignCount (multicast_writer dst (pre ++ m :: post) (rsPre ++ .fail e :: rsPost)
            (LoopState.init err0)).trace = 1)
    ∧ (∀ (payloads : List GoString) (rs more : List WriteResult),
        rs.length = payloads.length → (∀ r ∈ rs, r.isOk = true) →
        multicast_writer dst payloads (rs ++ more) (LoopState.init err0)
          = { err_out := err0, trace := sentTrace dst payloads, returned := false }
        ∧ writes (multicast_writer dst payloads (rs ++ more) (LoopState.init err0)).trace
          = payloads.map (fun p => (p, dst))) := by
  constructor
  · intro pre m post rsPre e rsPost hlen hok
    have hstate : multicast_writer dst (pre ++ m :: post) (rsPre ++ .fail e :: rsPost)
        (LoopState.init err0)
        = { err_out := some "Failed to WriteTo"
            trace := sentTrace dst pre ++ failedWriteEvents dst m
            returned := true } := by
      rw [multicast_writer_ok_run dst _ _ pre rsPre _ hlen hok]
      simp [multicast_writer, LoopState.fatal, LoopState.emit, LoopState.init,
        failedWriteEvents]
    rw [hstate]
    refine ⟨rfl, ?_, ?_, ?_⟩
    · simp [writes_append, writes_sentTrace, failedWriteEvents, writes]
    · simp [recvs_append, recvs_sentTrace, failedWriteEvents, recvs]
    · simp [assignCount_append, assignCount_sentTrace, failedWriteEvents, assignCount]
  · intro payloads rs more hlen hok
    rw [multicast_writer_all_ok dst err0 payloads rs more hlen hok]
    exact ⟨rfl, writes_sentTrace dst payloads⟩

/-- Witness of C3: of the payloads "0", "1", "2" the second write fails, so
"0" and "1" are written and "2" never is. -/
theorem multicast_writer_fifo_until_first_failure_witness :
    writes (multicast_writer { IP := group250, Port := 1024, Zone := "" }
        ([[48]] ++ [49] :: [[50]]) ([.ok 1] ++ .fail "sendto: network is down" :: [.ok 1])
        (LoopState.init none)).trace
      = [([48], { IP := group250, Port := 1024, Zone := "" }),
         ([49], { IP := group250, Port := 1024, Zone := "" })] :=
  ((multicast_writer_fifo_until_first_failure { IP := group250, Port := 1024, Zone := "" }
      none).1 [[48]] [49] [[50]] [.ok 1] "sendto: network is down" [.ok 1] rfl
      (by decide)).2.1

/-! ## Round trip over the loopback: proofs -/

theorem recvInto_length (b datagram : List Byte) : (recvInto b datagram).2.length = b.length := by
  simp only [recvInto, List.length_append, List.length_take, List.length_drop]
  omega

theorem recvInto_payload (b datagram : List Byte) :
    (recvInto b datagram).2.take (recvInto b datagram).1 = datagram.take b.length := by
  simp only [recvInto]
  apply List.take_left'
  simp only [List.length_take]
  omega

/-- A message the Receive Loop delivers is never longer than the read buffer. -/
theorem delivered_length_le (group : IP) (n : Nat) (b : List Byte) (cm : ControlMessage)
    (src : UDPAddr) (m : GoString) (h : delivered group (.ok n b cm src) = some m) :
    m.length ≤ b.length := by
  simp only [delivered] at h
  split at h
  · have hm : b.take n = m := Option.some.inj h
    rw [← hm, List.length_take]
    exact Nat.min_le_right _ _
  · exact Option.noConfusion h

theorem group250_matches : IP.IsMulticast group250 = true ∧ IP.Equal group250 group250 = true := by
  decide

/-- What the loopback hands to the Receive Loop is each datagram, cut to the
length of the read buffer. -/
theorem filterMap_delivered_loopback (src : UDPAddr) :
    ∀ (ms : List GoString) (b : List Byte),
      (loopback src (ms.map (fun p => (p, multicast_dst))) b).filterMap (delivered group250)
        = ms.map (fun p => p.take b.length)
  | [], _ => rfl
  | m :: ms, b => by
    have ih := filterMap_delivered_loopback src ms (recvInto b m).2
    rw [recvInto_length] at ih
    have hd : delivered group250
        (.ok (recvInto b m).1 (recvInto b m).2 { Dst := multicast_dst.IP } src)
        = some (m.take b.length) := by
      have hg := group250_matches
      simp only [delivered, multicast_dst, hg.1, hg.2, and_self, if_true, recvInto_payload]
    simp only [List.map_cons, loopback, List.filterMap_cons, hd, ih]

theorem loopback_never_ends_loop (src : UDPAddr) :
    ∀ (ds : List (List Byte × UDPAddr)) (b : List Byte) (r : ReadResult),
      r ∈ loopback src ds b → r.endsLoop = false ∧ isTimeout r = false
  | [], _, r, h => by simp [loopback] at h
  | (d, dst) :: ds, b, r, h => by
    simp only [loopback, List.mem_cons] at h
    rcases h with h | h
    · subst h; exact ⟨rfl, by simp [isTimeout]⟩
    · exact loopback_never_ends_loop src ds _ r h

theorem filterMap_delivered_filter (group : IP) :
    ∀ rs : List ReadResult,
      (rs.filter (fun r => !isTimeout r)).filterMap (delivered group)
        = rs.filterMap (delivered group)
  | [] => rfl
  | r :: rs => by
    by_cases h : isTimeout r = true
    · have hr : r = .fail (.opError true) := by simpa [isTimeout] using h
      subst hr
      rw [List.filter_cons]
      simp only [h, Bool.not_true, Bool.false_eq_true, if_false]
      rw [filterMap_delivered_filter group rs]
      simp [List.filterMap_cons, delivered]
    · have h2 : (!isTimeout r) = true := by simpa using h
      simp [List.filter_cons, h2, List.filterMap_cons, filterMap_delivered_filter group rs]

/-- Over the loopback, with every write succeeding, the Receive Loop keeps
running and delivers each pushed payload cut to the 1024 bytes of the read
buffer, in the order pushed, whatever timeouts occur in between. -/
theorem loopback_delivers_truncated (payloads : List GoString)
    (results more : List WriteResult) (rs : List ReadResult) (src : UDPAddr)
    (werr rerr : Option String)
    (hlen : results.length = payloads.length) (hok : ∀ r ∈ results, r.isOk = true)
    (hreads : rs.filter (fun r => !isTimeout r)
      = loopback src (writes (multicast_writer multicast_dst payloads (results ++ more)
          (LoopState.init werr)).trace) multicast_b) :
    (multicast_reader group250 rs (LoopState.init rerr)).returned = false
    ∧ sends (multicast_reader group250 rs (LoopState.init rerr)).trace
        = payloads.map (fun p => p.take 1024) := by
  rw [multicast_writer_all_ok multicast_dst werr payloads results more hlen hok,
    writes_sentTrace] at hreads
  have hrun : (multicast_reader group250 rs (LoopState.init rerr)).returned = false := by
    rw [multicast_reader_returned_eq group250 rs _ rfl]
    rw [Bool.eq_false_iff]
    intro hany
    obtain ⟨r, hr, hends⟩ := List.any_eq_true.1 hany
    by_cases ht : isTimeout r = true
    · have hr2 : r = .fail (.opError true) := by simpa [isTimeout] using ht
      subst hr2
      simp [ReadResult.endsLoop] at hends
    · have hmem : r ∈ rs.filter (fun r => !isTimeout r) := by
        simp [List.mem_filter, hr, ht]
      rw [hreads] at hmem
      have := (loopback_never_ends_loop src _ _ r hmem).1
      rw [this] at hends
      exact Bool.noConfusion hends
  refine ⟨hrun, ?_⟩
  obtain ⟨_, _, _, h4⟩ := multicast_reader_running group250 rs (LoopState.init rerr) hrun
  have hb : multicast_b.length = 1024 := List.length_replicate 1024 0
  rw [h4, ← filterMap_delivered_filter, hreads, filterMap_delivered_loopback, hb]
  simp [LoopState.init, sends]

theorem loopback_filter_timeouts (src : UDPAddr) (ds : List (List Byte × UDPAddr))
    (b : List Byte) :
    (loopback src ds b).filter (fun r => !isTimeout r) = loopback src ds b := by
  rw [List.filter_eq_self]
  intro r hr
  rw [(loopback_never_ends_loop src ds b r hr).2]
  rfl

/-- Counterexample to C5: a payload of 1025 bytes, written successfully and
returned by the loopback, is not delivered byte for byte: the inbound queue
receives something else than what was pushed. -/
theorem loopback_truncates_long_payload :
    sends (multicast_reader group250
        (loopback peerA
          (writes (multicast_writer multicast_dst [List.replicate 1025 0] ([.ok 1025] ++ [])
            (LoopState.init none)).trace) multicast_b)
        (LoopState.init none)).trace
      ≠ [List.replicate 1025 0] := by
  have h := (loopback_delivers_truncated [List.replicate 1025 0] [.ok 1025] []
    (loopback peerA
      (writes (multicast_writer multicast_dst [List.replicate 1025 0] ([.ok 1025] ++ [])
        (LoopState.init none)).trace) multicast_b)
    peerA none none rfl (by simp [WriteResult.isOk]) (loopback_filter_timeouts _ _ _)).2
  rw [h]
  intro heq
  have hl := congrArg (fun l => l.map List.length) heq
  simp only [List.map_cons, List.map_nil, List.length_take, List.length_replicate,
    List.cons.injEq, and_true] at hl
  omega

/-- C5 (amended): round trip over a reliable loopback for payloads of at most
1024 bytes, the size of the read buffer: if every write succeeds and the reads,
apart from timeouts, return the written datagrams in the order written with the
group as destination, then the payloads delivered to the inbound queue are the
payloads pushed, in order and byte for byte. -/
theorem loopback_round_trip (payloads : List GoString) (results more : List WriteResult)
    (rs : List ReadResult) (src : UDPAddr) (werr rerr : Option String)
    (hlen : results.length = payloads.length) (hok : ∀ r ∈ results, r.isOk = true)
    (hreads : rs.filter (fun r => !isTimeout r)
      = loopback src (writes (multicast_writer multicast_dst payloads (results ++ more)
          (LoopState.init werr)).trace) multicast_b)
    (hsize : ∀ p ∈ payloads, p.length ≤ 1024) :
    sends (multicast_reader group250 rs (LoopState.init rerr)).trace = payloads := by
  rw [(loopback_delivers_truncated payloads results more rs src werr rerr hlen hok hreads).2]
  conv_rhs => rw [← List.map_id payloads]
  apply List.map_congr_left
  intro p hp
  exact List.take_of_length_le (hsize p hp)

/-- Witness of C5 (amended): the payloads "0", "1", "2", with a read timeout
before the first datagram arrives. -/
theorem loopback_round_trip_witness :
    sends (multicast_reader group250
        (.fail (.opError true) :: loopback peerA
          (writes (multicast_writer multicast_dst [[48], [49], [50]]
            ([.ok 1, .ok 1, .ok 1] ++ []) (LoopState.init none)).trace) multicast_b)
        (LoopState.init none)).trace
      = [[48], [49], [50]] :=
  loopback_round_trip [[48], [49], [50]] [.ok 1, .ok 1, .ok 1] [] _ peerA none none rfl
    (by decide)
    (by
      rw [List.filter_cons]
      simp only [isTimeout, decide_True, Bool.not_true, Bool.false_eq_true, if_false]
      exact loopback_filter_timeouts _ _ _)
    (by decide)

/-! ## `multicast`: proofs -/

/-- When `p.SetMulticastTTL(2)` succeeds, either a setup error is written and
no loop is started, or both loops are started, with no setup error, on a
connection that has joined the group, delivers destination metadata and sends
with TTL 2. -/
theorem multicast_setup_when_ttl_set (setup : SetupResults) (payloads : List GoString)
    (writeResults : List WriteResult) (readResults : List ReadResult)
    (err_out writer_error reader_error : Option String)
    (httl : setup.SetMulticastTTL = true) :
    ((∃ text, (multicast setup payloads writeResults readResults err_out writer_error
          reader_error).err_out = some text)
      ∧ (multicast setup payloads writeResults readResults err_out writer_error
          reader_error).started = false
      ∧ (multicast setup payloads writeResults readResults err_out writer_error
          reader_error).writer = LoopState.init writer_error
      ∧ (multicast setup payloads writeResults readResults err_out writer_error
          reader_error).reader = LoopState.init reader_error)
    ∨ ((multicast setup payloads writeResults readResults err_out writer_error
          reader_error).err_out = err_out
      ∧ (multicast setup payloads writeResults readResults err_out writer_error
          reader_error).started = true
      ∧ ∃ p, (multicast setup payloads writeResults readResults err_out writer_error
          reader_error).conn = some p
        ∧ p.joined = some ("en0", group250) ∧ p.flagDst = true ∧ p.multicastTTL = 2) := by
  obtain ⟨a, b, c, d, e, f⟩ := setup
  simp only at httl
  subst httl
  cases a <;> cases b <;> cases c <;> cases d <;> cases e <;>
    simp [multicast, multicast_abort]

/-- C8, at the failing input: when every setup call succeeds except
`p.SetMulticastTTL(2)`, no setup error is written, both loops are started, and
the connection they run on sends with TTL 1, not 2. -/
theorem multicast_starts_loops_when_ttl_fails (payloads : List GoString)
    (writeResults : List WriteResult) (readResults : List ReadResult)
    (err_out writer_error reader_error : Option String) :
    (multicast setupTTLFails payloads writeResults readResults err_out writer_error reader_error).err_out = err_out
    ∧ (multicast setupTTLFails payloads writeResults readResults err_out writer_error reader_error).started = true
    ∧ (multicast setupTTLFails payloads writeResults readResults err_out writer_error reader_error).conn.map
          (fun p => p.multicastTTL) = some 1 := by
  simp [multicast, PacketConn.new, setupTTLFails]

/-! ## The queues: proofs -/

/-- Counterexample to C9: on the inbound queue as `main` creates it, the push of
the message "0" made while no consumer is waiting to pop does not complete, and
neither does a push onto the outbound queue. -/
theorem inbound_push_blocks_without_consumer :
    inbound.cap = 0 ∧ inbound.send [48] = none ∧ outbound.send [48] = none := by
  decide

/-- C9 (amended): the queues are unbuffered channels; on such a channel a push
completes exactly when a consumer is waiting to pop, it then hands the message
to that consumer and leaves nothing queued, and it blocks the producer when no
consumer is waiting.  The four queues of the two programs are such channels. -/
theorem push_completes_iff_consumer_waiting {α : Type} (ch : Chan α) (v : α)
    (hch : ch.unbuffered) :
    ((ch.send v).isSome = true ↔ 0 < ch.receivers)
    ∧ (ch.receivers = 0 → ch.send v = none)
    ∧ (∀ ch', ch.send v = some ch' →
        ch'.unbuffered ∧ ch'.received = ch.received ++ [v]
          ∧ ch'.receivers = ch.receivers - 1)
    ∧ ch.recv.unbuffered
    ∧ inbound.unbuffered ∧ outbound.unbuffered
    ∧ readChannel.unbuffered ∧ writeChannel.unbuffered := by
  obtain ⟨hcap, hbuf⟩ := hch
  refine ⟨?_, ?_, ?_, ?_, ⟨rfl, rfl⟩, ⟨rfl, rfl⟩, ⟨rfl, rfl⟩, ⟨rfl, rfl⟩⟩
  · by_cases hr : 0 < ch.receivers
    · simp [Chan.send, hr]
    · simp [Chan.send, hr, hcap]
  · intro hr
    simp [Chan.send, hr, hcap]
  · intro ch' hsend
    by_cases hr : 0 < ch.receivers
    · simp only [Chan.send, hr, if_true, Option.some.injEq] at hsend
      subst hsend
      exact ⟨⟨hcap, hbuf⟩, rfl, rfl⟩
    · simp [Chan.send, hr, hcap] at hsend
  · simp only [Chan.recv, hbuf]
    exact ⟨hcap, rfl⟩

/-- Witness of C9 (amended): the inbound queue once the consumer waits in a pop. -/
theorem push_completes_iff_consumer_waiting_witness :
    inbound.recv.unbuffered ∧ (inbound.recv.send [48]).isSome = true :=
  have hu : inbound.recv.unbuffered := ⟨rfl, rfl⟩
  ⟨hu, (push_completes_iff_consumer_waiting inbound.recv [48] hu).1.2 (by decide)⟩

/-! ## Interface selection: proofs -/

theorem flagUpAndMulticast_eq : flagUpAndMulticast = 17 := by decide

/-- The flag test of line 30 holds exactly when both flags are set. -/
theorem flags_test_iff (iface : Interface) :
    iface.Flags &&& flagUpAndMulticast = flagUpAndMulticast ↔ upAndMulticast iface := by
  rw [flagUpAndMulticast_eq]
  unfold upAndMulticast
  generalize iface.Flags = f
  have e0 : Nat.testBit 17 0 = true := by decide
  have e1 : Nat.testBit 17 1 = false := by decide
  have e2 : Nat.testBit 17 2 = false := by decide
  have e3 : Nat.testBit 17 3 = false := by decide
  have e4 : Nat.testBit 17 4 = true := by decide
  constructor
  · intro h
    have h0 := congrArg (fun x => x.testBit 0) h
    have h4 := congrArg (fun x => x.testBit 4) h
    simp only [Nat.testBit_and] at h0 h4
    rw [e0, Bool.and_true] at h0
    rw [e4, Bool.and_true] at h4
    exact ⟨h0, h4⟩
  · rintro ⟨h0, h4⟩
    apply Nat.eq_of_testBit_eq
    intro i
    rw [Nat.testBit_and]
    by_cases hi : i < 5
    · interval_cases i
      · rw [h0, e0]; rfl
      · rw [e1, Bool.and_false]
      · rw [e2, Bool.and_false]
      · rw [e3, Bool.and_false]
      · rw [h4, e4]; rfl
    · have : Nat.testBit 17 i = false := by
        apply Nat.testBit_lt_two_pow
        calc 17 < 2 ^ 5 := by norm_num
          _ ≤ 2 ^ i := Nat.pow_le_pow_right (by norm_num) (by omega)
      rw [this, Bool.and_false]

/-- The indexes collected from position `i` on: those already in `acc`, and the
positions of the interfaces that pass the flag test. -/
theorem mem_collectAvailable :
    ∀ (ifs : List Interface) (i : Nat) (acc : List Nat) (j : Nat),
      j ∈ collectAvailable ifs i acc ↔
        j ∈ acc ∨ (i ≤ j ∧ ∃ iface, ifs.get? (j - i) = some iface
          ∧ iface.Flags &&& flagUpAndMulticast = flagUpAndMulticast)
  | [], i, acc, j => by simp [collectAvailable]
  | iface :: rest, i, acc, j => by
    have ih1 := mem_collectAvailable rest (i + 1) (acc ++ [i]) j
    have ih2 := mem_collectAvailable rest (i + 1) acc j
    have hstep : ∀ f : Interface, i + 1 ≤ j →
        ((iface :: rest).get? (j - i) = some f ↔ rest.get? (j - (i + 1)) = some f) := by
      intro f hj
      have : j - i = (j - (i + 1)) + 1 := by omega
      rw [this, List.get?_cons_succ]
    by_cases hc : iface.Flags &&& flagUpAndMulticast = flagUpAndMulticast
    · simp only [collectAvailable, if_pos hc]
      rw [ih1]
      constructor
      · rintro (h | ⟨hj, f, hf, hcf⟩)
        · rcases List.mem_append.1 h with h | h
          · exact Or.inl h
          · have hji : j = i := by simpa using h
            subst hji
            exact Or.inr ⟨le_refl _, iface, by simp, hc⟩
        · exact Or.inr ⟨by omega, f, (hstep f hj).2 hf, hcf⟩
      · rintro (h | ⟨hj, f, hf, hcf⟩)
        · exact Or.inl (List.mem_append.2 (Or.inl h))
        · by_cases hji : j = i
          · subst hji
            exact Or.inl (List.mem_append.2 (Or.inr (by simp)))
          · have hj2 : i + 1 ≤ j := by omega
            exact Or.inr ⟨hj2, f, (hstep f hj2).1 hf, hcf⟩
    · simp only [collectAvailable, if_neg hc]
      rw [ih2]
      constructor
      · rintro (h | ⟨hj, f, hf, hcf⟩)
        · exact Or.inl h
        · exact Or.inr ⟨by omega, f, (hstep f hj).2 hf, hcf⟩
      · rintro (h | ⟨hj, f, hf, hcf⟩)
        · exact Or.inl h
        · by_cases hji : j = i
          · subst hji
            have : iface = f := by simpa using hf
            subst this
            exact absurd hcf hc
          · have hj2 : i + 1 ≤ j := by omega
            exact Or.inr ⟨hj2, f, (hstep f hj2).1 hf, hcf⟩

/-- The indexes are collected in increasing order. -/
theorem sorted_collectAvailable :
    ∀ (ifs : List Interface) (i : Nat) (acc : List Nat),
      acc.Sorted (fun a b => a < b) → (∀ a ∈ acc, a < i) →
      (collectAvailable ifs i acc).Sorted (fun a b => a < b)
  | [], _, acc, h, _ => by simpa [collectAvailable] using h
  | iface :: rest, i, acc, h, hlt => by
    by_cases hc : iface.Flags &&& flagUpAndMulticast = flagUpAndMulticast
    · simp only [collectAvailable, if_pos hc]
      apply sorted_collectAvailable rest (i + 1) (acc ++ [i])
      · unfold List.Sorted at h ⊢
        rw [List.pairwise_append]
        refine ⟨h, List.pairwise_singleton _ _, ?_⟩
        intro a ha b hb
        have hbi : b = i := by simpa using hb
        subst hbi
        exact hlt a ha
      · intro a ha
        rcases List.mem_append.1 ha with ha | ha
        · exact Nat.lt_succ_of_lt (hlt a ha)
        · have hai : a = i := by simpa using ha
          subst hai
          exact Nat.lt_succ_self _
    · simp only [collectAvailable, if_neg hc]
      exact sorted_collectAvailable rest (i + 1) acc h
        (fun a ha => Nat.lt_succ_of_lt (hlt a ha))

/-- An index the prompt loop accepts lies within the candidate list. -/
theorem promptLoop_in_range (e : Int) :
    ∀ (inputs : List (Option Int)) (user_i u : Int),
      promptLoop e inputs user_i = some u → 0 ≤ u ∧ u ≤ e
  | [], _, _, h => by simp [promptLoop] at h
  | scan :: rest, user_i, u, h => by
    simp only [promptLoop] at h
    split at h
    · rename_i hin
      have : _ = u := Option.some.inj h
      rw [this] at hin
      exact hin
    · exact promptLoop_in_range e rest _ u h

/-- The candidates are exactly the positions of the interfaces with both flags. -/
theorem mem_availableInterfaceIndexes (interfaces : List Interface) (i : Nat) :
    i ∈ availableInterfaceIndexes interfaces ↔
      ∃ iface, interfaces.get? i = some iface ∧ upAndMulticast iface := by
  unfold availableInterfaceIndexes
  rw [mem_collectAvailable]
  simp only [List.not_mem_nil, false_or, Nat.zero_le, true_and, Nat.sub_zero, flags_test_iff]

/-- Both lookups of line 58 succeed for an index within the candidate list, and
the interface found has both flags. -/
theorem selection_lookup (interfaces : List Interface) (u : Int) (h0 : 0 ≤ u)
    (h1 : u ≤ ((availableInterfaceIndexes interfaces).length : Int) - 1) :
    ∃ idx iface, index (availableInterfaceIndexes interfaces) u = some idx
      ∧ index interfaces (idx : Int) = some iface
      ∧ (availableInterfaceIndexes interfaces).get? u.toNat = some idx
      ∧ interfaces.get? idx = some iface
      ∧ upAndMulticast iface := by
  have hlt : u.toNat < (availableInterfaceIndexes interfaces).length := by omega
  have hget : (availableInterfaceIndexes interfaces).get? u.toNat
      = some ((availableInterfaceIndexes interfaces).get ⟨u.toNat, hlt⟩) :=
    List.get?_eq_get hlt
  have hmem : (availableInterfaceIndexes interfaces).get ⟨u.toNat, hlt⟩
      ∈ availableInterfaceIndexes interfaces := List.get_mem _ _ _
  obtain ⟨iface, hif, hflags⟩ := (mem_availableInterfaceIndexes interfaces _).1 hmem
  refine ⟨_, iface, ?_, ?_, hget, hif, hflags⟩
  · unfold index
    rw [if_pos h0, hget]
  · unfold index
    rw [if_pos (Int.ofNat_nonneg _), Int.toNat_ofNat, hif]

/-- C10: the candidate list holds, in increasing order, exactly the indexes of
the interfaces with both the up flag and the multicast flag; with no candidate
the program stops without selecting; an index is accepted only within
`[0, number of candidates - 1]`, so that neither lookup of
`interfaces[availableInterfaceIndexes[user_i]]` is out of range and the
interface chosen has both flags; and an input within that range is accepted. -/
theorem interfaceSelection_safe (interfaces : List Interface) (inputs : List (Option Int)) :
    (availableInterfaceIndexes interfaces).Sorted (fun a b => a < b)
    ∧ (∀ i, i ∈ availableInterfaceIndexes interfaces ↔
        ∃ iface, interfaces.get? i = some iface ∧ upAndMulticast iface)
    ∧ (availableInterfaceIndexes interfaces = [] →
        interfaceSelection (some interfaces) inputs = .noInterfaces)
    ∧ interfaceSelection (some interfaces) inputs ≠ .indexOutOfRange
    ∧ (∀ u iface, interfaceSelection (some interfaces) inputs = .selected u iface →
        0 ≤ u ∧ u ≤ ((availableInterfaceIndexes interfaces).length : Int) - 1
        ∧ ∃ idx, (availableInterfaceIndexes interfaces).get? u.toNat = some idx
          ∧ interfaces.get? idx = some iface ∧ upAndMulticast iface)
    ∧ (∀ v rest, 0 ≤ v → v ≤ ((availableInterfaceIndexes interfaces).length : Int) - 1 →
        ∃ iface, interfaceSelection (some interfaces) (some v :: rest) = .selected v iface
          ∧ upAndMulticast iface) := by
  refine ⟨?_, mem_availableInterfaceIndexes interfaces, ?_, ?_, ?_, ?_⟩
  · exact sorted_collectAvailable interfaces 0 [] List.sorted_nil (by simp)
  · intro h
    simp [interfaceSelection, h]
  · unfold interfaceSelection
    simp only
    split
    · simp
    · cases hp : promptLoop (((availableInterfaceIndexes interfaces).length : Int) - 1) inputs 0 with
      | none => simp
      | some u =>
        obtain ⟨h0, h1⟩ := promptLoop_in_range _ inputs 0 u hp
        obtain ⟨idx, iface, hi1, hi2, _, _, _⟩ := selection_lookup interfaces u h0 h1
        simp [hi1, hi2]
  · intro u iface hsel
    unfold interfaceSelection at hsel
    simp only at hsel
    split at hsel
    · simp at hsel
    · cases hp : promptLoop (((availableInterfaceIndexes interfaces).length : Int) - 1) inputs 0 with
      | none => simp [hp] at hsel
      | some u' =>
        obtain ⟨h0, h1⟩ := promptLoop_in_range _ inputs 0 u' hp
        obtain ⟨idx, iface', hi1, hi2, hg1, hg2, hfl⟩ := selection_lookup interfaces u' h0 h1
        simp only [hp, hi1, hi2, Selection.selected.injEq] at hsel
        obtain ⟨hu, hif⟩ := hsel
        subst hu
        subst hif
        exact ⟨h0, h1, idx, hg1, hg2, hfl⟩
  · intro v rest h0 h1
    obtain ⟨idx, iface, hi1, hi2, _, _, hfl⟩ := selection_lookup interfaces v h0 h1
    refine ⟨iface, ?_, hfl⟩
    have hne : ¬ (availableInterfaceIndexes interfaces).length = 0 := by omega
    have hp : promptLoop (((availableInterfaceIndexes interfaces).length : Int) - 1)
        (some v :: rest) 0 = some v := by
      simp [promptLoop, h0, h1]
    simp [interfaceSelection, hne, hp, hi1, hi2]

/-- Witness of C10: of four interfaces the second and the fourth are
candidates; 5, a non-number and -1 are refused, then 1 selects the fourth. -/
theorem interfaceSelection_safe_witness :
    availableInterfaceIndexes sampleInterfaces = [1, 3]
    ∧ interfaceSelection (some sampleInterfaces) sampleInputs
        = .selected 1 { Index := 4, Name := "utun0", Flags := 17 }
    ∧ upAndMulticast { Index := 4, Name := "utun0", Flags := 17 } :=
  have hsel : interfaceSelection (some sampleInterfaces) sampleInputs
      = .selected 1 { Index := 4, Name := "utun0", Flags := 17 } := by decide
  ⟨by decide, hsel,
    ((interfaceSelection_safe sampleInterfaces sampleInputs).2.2.2.2.1 1 _ hsel).2.2.choose_spec.2.2⟩

end P2PInstantMessenger
